import Mathlib

/-!
Verification of the message-dispatch core of webbybot.

The embedding covers the `Robot` class of the repository: the listener
dispatch pipeline (`receive` / `processListeners`), the error channel
(`invokeErrorHandlers`), the listener-registration helpers
(`enter` / `leave` / `topic` / `catchAll`) and the addressed-pattern builder
(`respondPattern`).  The repository holds two copies of the robot module: the
complete one (namespace `Robot` below) and an earlier snapshot at
`src/robot.js` (namespace `RobotSrc` below) whose `leave`/`topic` helpers
differ; both are embedded where they differ.

JavaScript exceptions are modelled with `Except JSError`.  Strict-mode
semantics matter in one place: inside a plain (non-arrow) callback passed to
`Array.prototype.forEach`, `this` is `undefined`, so a member access such as
`this.logger` raises a TypeError; the embedding of `invokeErrorHandlers`
models this faithfully.
-/

/-- Model of a JavaScript exception value: either a user-thrown error
(identified by a tag) or an engine-raised TypeError. -/
inductive JSError
  | thrown (tag : String)
  | typeError (msg : String)
deriving DecidableEq

/-- Modelled from the spec: the tagged message variants of the robot's message
module (`Text`, `Enter`, `Leave`, `Topic`, and the `CatchAll` wrapper around
one underlying message).  Every message object carries a mutable `done` flag,
initially `false`.  `undefinedVal` stands for the JavaScript `undefined` value, so
that reading the `message` property of a message that has none is
representable.  The user/room payload is elided: no verified property depends
on it. -/
inductive Message
  | text (body : String) (doneFlag : Bool)
  | enter (doneFlag : Bool)
  | leave (doneFlag : Bool)
  | topic (doneFlag : Bool)
  | catchAll (inner : Message) (doneFlag : Bool)
  | undefinedVal
deriving DecidableEq

/-- Reading the `done` flag of a message (`false` on `undefined`, as any
property read on it would already have faulted; the dispatcher only reads
`done` off real messages). -/
def Message.done : Message → Bool
  | .text _ d => d
  | .enter d => d
  | .leave d => d
  | .topic d => d
  | .catchAll _ d => d
  | .undefinedVal => false

/-- Setting the `done` flag of a message to `true` (the single sanctioned
mutation listeners may perform on a message). -/
def Message.setDone : Message → Message
  | .text b _ => .text b true
  | .enter _ => .enter true
  | .leave _ => .leave true
  | .topic _ => .topic true
  | .catchAll i _ => .catchAll i true
  | .undefinedVal => .undefinedVal

/-- Test for `msg instanceof EnterMessage`. -/
def Message.isEnterMessage : Message → Bool
  | .enter _ => true
  | _ => false

/-- Test for `msg instanceof LeaveMessage`. -/
def Message.isLeaveMessage : Message → Bool
  | .leave _ => true
  | _ => false

/-- Test for `msg instanceof TopicMessage`. -/
def Message.isTopicMessage : Message → Bool
  | .topic _ => true
  | _ => false

/-- Test for `msg instanceof CatchAllMessage`. -/
def Message.isCatchAllMessage : Message → Bool
  | .catchAll _ _ => true
  | _ => false

/-- Reading the `message` property of a message: only the `CatchAll` wrapper
has one; on every other variant the read yields `undefined`. -/
def Message.messageProp : Message → Message
  | .catchAll inner _ => inner
  | _ => .undefinedVal

/-- Response context handed to listener callbacks, `new Response(robot,
message)`.  Only the `message` field is relevant to the verified properties;
the robot back-pointer, envelope and match data are elided. -/
structure Response where
  message : Message
deriving DecidableEq

/-- Modelled from the spec: a registered listener, an immutable record of a
matcher (a predicate on the message, which may throw) and a callback (an
effect on the response context, which may throw).  The callback's effect on
the shared message (setting its `done` flag) is modelled by the message of the
returned response. -/
structure Listener where
  matcher : Message → Except JSError Bool
  callback : Response → Except JSError Response

/-- Modelled from the spec: `Listener.call` of the listener module (not among
the sources; only its caller `processListeners` is).  It evaluates the matcher
against the message; on a match it runs the callback on a response wrapping
the message and reports the listener as executed, otherwise it reports it as
not executed.  A throw from the matcher or from the callback propagates
synchronously to the caller (`processListeners` catches it).  The listener
middleware chain sits between matching and the callback; with no registered
listener middleware (the configuration all verified properties are about) it
reduces to invoking the callback directly. -/
def Listener.call (l : Listener) (message : Message) :
    Except JSError (Bool × Message) :=
  match l.matcher message with
  | Except.error e => Except.error e
  | Except.ok false => Except.ok (false, message)
  | Except.ok true =>
    match l.callback ⟨message⟩ with
    | Except.error e => Except.error e
    | Except.ok resp => Except.ok (true, resp.message)

/-- Observable events of one dispatch pass, in program order: a listener
executed, an exception was forwarded to the error channel (`emit` of the
`error` event with the offending error and a response context around the
current message), the message was wrapped in a `CatchAll` and re-dispatched,
or the caller-supplied completion callback was invoked. -/
inductive Ev
  | executed (i : Nat)
  | errored (i : Nat) (e : JSError) (respMsg : Message)
  | wrapped
  | settled
deriving DecidableEq

/-- Test for the `settled` event. -/
def isSettledEv : Ev → Bool
  | Ev.settled => true
  | _ => false

/-- Test for the `wrapped` event. -/
def isWrapEv : Ev → Bool
  | Ev.wrapped => true
  | _ => false

/-- Number of completion-callback invocations recorded in a trace. -/
def countSettled (t : List Ev) : Nat := (t.filter isSettledEv).length

/-- Number of catch-all wraps recorded in a trace. -/
def countWrap (t : List Ev) : Nat := (t.filter isWrapEv).length

/-- Index of an executed listener, if the event records an execution. -/
def executedIdx? : Ev → Option Nat
  | Ev.executed i => some i
  | _ => none

/-- Indices of the listeners that executed, in the order they executed. -/
def executedIdxs (t : List Ev) : List Nat := t.filterMap executedIdx?

/-- Outcome of the sequential listener search of one dispatch pass: the final
state of the (shared, mutable) message, the `anyListenersExecuted` flag, and
the events it produced. -/
structure ScanResult where
  msg : Message
  anyExecuted : Bool
  events : List Ev
deriving DecidableEq

/-- Embedding of the `async.detectSeries` loop of `Robot.processListeners`
(robot module, full copy): try the listeners in registration order starting at
index `i`; after each attempt stop as soon as the message's `done` flag is
`true` (`cb(context.response.message.done)`); when `listener.call` throws,
forward the error to the error channel together with a response context around
the current message (`this.emit('error', error, new this.Response(this,
context.response.message, []))`) and continue with the next listener
(`cb(false)`), leaving `anyListenersExecuted` untouched. -/
def scanFrom (i : Nat) (ls : List Listener) (msg : Message) (anyEx : Bool) :
    ScanResult :=
  match ls with
  | [] => ⟨msg, anyEx, []⟩
  | l :: rest =>
    match Listener.call l msg with
    | Except.error e =>
      let r := scanFrom (i + 1) rest msg anyEx
      ⟨r.msg, r.anyExecuted, Ev.errored i e msg :: r.events⟩
    | Except.ok (executed, msg2) =>
      let evs := if executed then [Ev.executed i] else []
      let anyEx2 := anyEx || executed
      if msg2.done then ⟨msg2, anyEx2, evs⟩
      else
        let r := scanFrom (i + 1) rest msg2 anyEx2
        ⟨r.msg, r.anyExecuted, evs ++ r.events⟩

/-- Embedding of the final-callback guard of `Robot.processListeners`:
`if (done != null) { process.nextTick(done); }` — the completion callback is
invoked only when one was supplied. -/
def settleEvents : Option Unit → List Ev
  | some _ => [Ev.settled]
  | none => []

/-- Embedding of `Robot.processListeners` (robot module, full copy): run the
listener search; afterwards, if the message is not a `CatchAllMessage` and no
listener executed, wrap the (current) message in a fresh `CatchAllMessage`
(whose `done` flag starts `false`) and re-dispatch it through
`this.receive(new CatchAllMessage(context.response.message), done)`; otherwise
invoke the completion callback if one was supplied.  With no registered
receive middleware (the configuration all verified properties are about),
`receive` reduces to `processListeners` — modelled from the spec: an empty
middleware chain's `execute(context, onComplete, onDone)` invokes
`onComplete(context, onDone)` directly — so the re-dispatch appears below as a
direct recursive call. -/
def Robot.processListeners (listeners : List Listener) (msg : Message)
    (done : Option Unit) : List Ev :=
  let r := scanFrom 0 listeners msg false
  if h : Message.isCatchAllMessage msg = false ∧ r.anyExecuted = false then
    r.events ++ Ev.wrapped ::
      Robot.processListeners listeners (Message.catchAll r.msg false) done
  else
    r.events ++ settleEvents done
termination_by (if Message.isCatchAllMessage msg then 0 else 1)
decreasing_by
  simp_all [Message.isCatchAllMessage]

/-- Embedding of `Robot.receive` (public dispatch entry point): run the
message through the receive middleware chain with `processListeners` as the
completion continuation and the optional caller callback as the closing
continuation.  With no registered receive middleware the chain reduces to
invoking `processListeners` directly (modelled from the spec, §empty chain
above). -/
def Robot.receive (listeners : List Listener) (message : Message)
    (cb : Option Unit) : List Ev :=
  Robot.processListeners listeners message cb

/-- Embedding of the `errorHandlers.forEach` loop of
`Robot.invokeErrorHandlers`, tracking which handlers were invoked (by index,
starting at `i`).  The loop body is a plain `function`, not an arrow function,
so in strict mode `this` is `undefined` inside it: when a handler throws, the
`catch` clause evaluates `this.logger.error(...)`, and the member access
`this.logger` raises a TypeError which propagates out of `forEach` — the
remaining handlers are never invoked. -/
def invokeHandlersFrom {α β : Type} (i : Nat)
    (handlers : List (α → β → Except JSError Unit)) (err : α) (res : β) :
    List Nat × Except JSError Unit :=
  match handlers with
  | [] => ([], Except.ok ())
  | h :: rest =>
    match h err res with
    | Except.ok _ =>
      let r := invokeHandlersFrom (i + 1) rest err res
      (i :: r.1, r.2)
    | Except.error _ =>
      ([i], Except.error (JSError.typeError
        ("Cannot read property logger of undefined")))

/-- Embedding of `Robot.invokeErrorHandlers(err, res)` (identical in both
copies of the robot module): log the error, then invoke every registered error
handler in registration order with `(err, res)` — subject to the strict-mode
`this` behaviour of the `forEach` body described at `invokeHandlersFrom`.  It
returns the indices of the handlers that were invoked and the overall outcome
of the call (`ok` for normal return, `error` when an exception escapes to the
caller). -/
def Robot.invokeErrorHandlers {α β : Type}
    (errorHandlers : List (α → β → Except JSError Unit)) (err : α) (res : β) :
    List Nat × Except JSError Unit :=
  invokeHandlersFrom 0 errorHandlers err res

/-- Embedding of `Robot.enter` (full copy): registers a listener whose matcher
is `msg instanceof EnterMessage`. -/
def Robot.enter (callback : Response → Except JSError Response) : Listener :=
  ⟨fun m => Except.ok (Message.isEnterMessage m), callback⟩

/-- Embedding of `Robot.leave` (full copy of the robot module): registers a
listener whose matcher is `msg instanceof LeaveMessage`. -/
def Robot.leave (callback : Response → Except JSError Response) : Listener :=
  ⟨fun m => Except.ok (Message.isLeaveMessage m), callback⟩

/-- Embedding of `Robot.topic` (full copy of the robot module): registers a
listener whose matcher is `msg instanceof TopicMessage`. -/
def Robot.topic (callback : Response → Except JSError Response) : Listener :=
  ⟨fun m => Except.ok (Message.isTopicMessage m), callback⟩

/-- Embedding of `Robot.leave` as it stands in `src/robot.js`: its matcher
tests `msg instanceof EnterMessage`. -/
def RobotSrc.leave (callback : Response → Except JSError Response) :
    Listener :=
  ⟨fun m => Except.ok (Message.isEnterMessage m), callback⟩

/-- Embedding of `Robot.topic` as it stands in `src/robot.js`: its matcher
tests `msg instanceof EnterMessage`. -/
def RobotSrc.topic (callback : Response → Except JSError Response) :
    Listener :=
  ⟨fun m => Except.ok (Message.isEnterMessage m), callback⟩

/-- Embedding of `Robot.catchAll` (identical in both copies): registers a
listener whose matcher is `msg instanceof CatchAllMessage` and whose callback
first replaces the response's message by the message's own `message` property
(`msg.message = msg.message.message`) and then invokes the user-supplied
callback on the modified response. -/
def Robot.catchAll (callback : Response → Except JSError Response) :
    Listener :=
  ⟨fun m => Except.ok (Message.isCatchAllMessage m),
   fun resp => callback ⟨resp.message.messageProp⟩⟩

/-!
Regular expressions.  `Robot.respondPattern` builds the source string of an
ECMAScript regular expression; the following is a small executable interpreter
for the constructs such a built pattern can contain (start anchor, literals,
escapes, character classes, `(?: )` groups, alternation and the greedy
quantifiers), so that membership of concrete strings in the built pattern is
computable inside the logic.
-/

/-- Abstract syntax of the regular-expression subset. -/
inductive RE
  | eps
  | startAnchor
  | lit (c : Char)
  | cls (cs : List Char) (neg : Bool)
  | seq (a b : RE)
  | alt (a b : RE)
  | star (a : RE)
  | opt (a : RE)
deriving DecidableEq

/-- Size of a regular expression, used to bound the matcher's work. -/
def reSize : RE → Nat
  | RE.eps => 1
  | RE.startAnchor => 1
  | RE.lit _ => 1
  | RE.cls _ _ => 1
  | RE.seq a b => reSize a + reSize b + 1
  | RE.alt a b => reSize a + reSize b + 1
  | RE.star a => reSize a + 1
  | RE.opt a => reSize a + 1

/-- Characters matched by the `\s` class (ECMAScript WhiteSpace and
LineTerminator; the ASCII part plus no-break space, which covers every input
considered here). -/
def wsChars : List Char :=
  [' ', '\t', '\n', '\r', Char.ofNat 11, Char.ofNat 12, Char.ofNat 160]

/-- Characters matched by the `\d` class. -/
def digitChars : List Char :=
  ['0', '1', '2', '3', '4', '5', '6', '7', '8', '9']

/-- Meaning of a backslash escape in pattern position: the classes `\s`, `\S`,
`\d`, `\D`, the control escapes `\n`, `\r`, `\t`, and identity on every other
escaped character (covering escapes of syntax characters such as brackets and
operators). -/
def escapedRE (c : Char) : RE :=
  if c = 's' then RE.cls wsChars false
  else if c = 'S' then RE.cls wsChars true
  else if c = 'd' then RE.cls digitChars false
  else if c = 'D' then RE.cls digitChars true
  else if c = 'n' then RE.lit '\n'
  else if c = 'r' then RE.lit '\r'
  else if c = 't' then RE.lit '\t'
  else RE.lit c

/-- Body of a character class: the characters up to the closing bracket, with
backslash escapes taken literally.  Returns the collected characters and the
rest of the input past the bracket. -/
def classBody : List Char → Option (List Char × List Char)
  | [] => none
  | ']' :: rest => some ([], rest)
  | '\\' :: c :: rest =>
    match classBody rest with
    | some (cs, r) => some (c :: cs, r)
    | none => none
  | '\\' :: [] => none
  | c :: rest =>
    match classBody rest with
    | some (cs, r) => some (c :: cs, r)
    | none => none

/-- Greedy postfix quantifiers after an atom: `*`, `?` and `+`. -/
def applyPost : RE → List Char → RE × List Char
  | r, '*' :: rest => applyPost (RE.star r) rest
  | r, '?' :: rest => applyPost (RE.opt r) rest
  | r, '+' :: rest => applyPost (RE.seq r (RE.star r)) rest
  | r, cs => (r, cs)

/-- Selector for the three mutually recursive parsing levels: alternation,
concatenation, atom. -/
inductive PMode
  | alt
  | cat
  | atom

/-- Recursive-descent reading of the pattern source into `RE`, fuelled so the
recursion is structural.  Alternation level: concatenations separated by `|`.
Concatenation level: a sequence of quantified atoms up to `|`, `)` or the end.
Atom level: `^`, an escape, a character class, a (possibly non-capturing)
group, `.` or a literal character. -/
def parseR : Nat → PMode → List Char → Option (RE × List Char)
  | 0, _, _ => none
  | fuel + 1, PMode.alt, cs =>
    match parseR fuel PMode.cat cs with
    | none => none
    | some (a, cs2) =>
      match cs2 with
      | '|' :: rest =>
        match parseR fuel PMode.alt rest with
        | none => none
        | some (b, cs3) => some (RE.alt a b, cs3)
      | _ => some (a, cs2)
  | fuel + 1, PMode.cat, cs =>
    match cs with
    | [] => some (RE.eps, [])
    | '|' :: _ => some (RE.eps, cs)
    | ')' :: _ => some (RE.eps, cs)
    | _ =>
      match parseR fuel PMode.atom cs with
      | none => none
      | some (a, cs2) =>
        let p := applyPost a cs2
        match parseR fuel PMode.cat p.2 with
        | none => none
        | some (b, cs3) => some (RE.seq p.1 b, cs3)
  | fuel + 1, PMode.atom, cs =>
    match cs with
    | [] => none
    | '^' :: rest => some (RE.startAnchor, rest)
    | '\\' :: c :: rest => some (escapedRE c, rest)
    | '\\' :: [] => none
    | '[' :: '^' :: rest =>
      match classBody rest with
      | some (body, r) => some (RE.cls body true, r)
      | none => none
    | '[' :: rest =>
      match classBody rest with
      | some (body, r) => some (RE.cls body false, r)
      | none => none
    | '(' :: '?' :: ':' :: rest =>
      match parseR fuel PMode.alt rest with
      | some (r, ')' :: cs2) => some (r, cs2)
      | _ => none
    | '(' :: rest =>
      match parseR fuel PMode.alt rest with
      | some (r, ')' :: cs2) => some (r, cs2)
      | _ => none
    | '.' :: rest => some (RE.cls ['\n', '\r'] true, rest)
    | ')' :: _ => none
    | c :: rest => some (RE.lit c, rest)

/-- Character comparison under the optional case-insensitive flag (folding to
lower case, the relevant canonicalisation for the ASCII inputs here). -/
def ceq (ci : Bool) (a b : Char) : Bool :=
  if ci then a.toLower = b.toLower else a = b

/-- Membership of a character in a character class, honouring negation and the
case-insensitive flag. -/
def inClass (ci : Bool) (c : Char) (cs : List Char) (neg : Bool) : Bool :=
  (cs.any (fun d => ceq ci d c)) != neg

/-- Backtracking matcher: does `r` match at index `i` of `s` and continue with
`k`?  `^` asserts index zero (no multiline flag is ever passed to the built
patterns).  Quantifiers are greedy; the empty-step guard `i < j` stops a star
from looping without consuming input.  Fuelled so the recursion is
structural; a sufficient fuel is supplied by `jsTest` below. -/
def matchRE (ci : Bool) : Nat → RE → List Char → Nat → (Nat → Bool) → Bool
  | 0, _, _, _, _ => false
  | fuel + 1, r, s, i, k =>
    match r with
    | RE.eps => k i
    | RE.startAnchor => decide (i = 0) && k i
    | RE.lit c =>
      match s.get? i with
      | some d => ceq ci c d && k (i + 1)
      | none => false
    | RE.cls cs neg =>
      match s.get? i with
      | some d => inClass ci d cs neg && k (i + 1)
      | none => false
    | RE.seq a b => matchRE ci fuel a s i (fun j => matchRE ci fuel b s j k)
    | RE.alt a b => matchRE ci fuel a s i k || matchRE ci fuel b s i k
    | RE.opt a => matchRE ci fuel a s i k || k i
    | RE.star a =>
      matchRE ci fuel a s i
        (fun j => if i < j then matchRE ci fuel (RE.star a) s j k else false)
      || k i

/-- Embedding of `RegExp.prototype.test` for a regular expression given by its
pattern source and its flags: parse the pattern and try a match at every start
position of the input (an un-anchored search, as `test` performs without the
global flag). -/
def jsTest (pattern : String) (flags : String) (input : String) : Bool :=
  let pcs := pattern.toList
  match parseR (4 * pcs.length + 16) PMode.alt pcs with
  | some (r, []) =>
    let s := input.toList
    let ci := flags.toList.contains 'i'
    let fuel := (reSize r + 4) * (s.length + 4) + 16
    (List.range (s.length + 1)).any
      (fun p => matchRE ci fuel r s p (fun _ => true))
  | _ => false

/-- Characters JavaScript-escaped by the robot's name/alias escaping step,
`replace(/[-[\]{}()*+?.,\\^$|#\s]/g, ...)`: the listed syntax characters plus
the `\s` class. -/
def escapeCharSet : List Char :=
  ['-', '[', ']', Char.ofNat 123, Char.ofNat 125, '(', ')', '*', '+', '?',
   '.', ',', '\\', '^', '$', '|', Char.ofNat 35] ++ wsChars

/-- Character-level body of the escaping step: prefix each character of the
escape set with a backslash (`'\\$&'`). -/
def escapeRegexChars : List Char → List Char
  | [] => []
  | c :: rest =>
    if escapeCharSet.contains c then '\\' :: c :: escapeRegexChars rest
    else c :: escapeRegexChars rest

/-- Escaping of the robot's name or alias for literal use inside a pattern. -/
def escapeRegex (s : String) : String := String.mk (escapeRegexChars s.toList)

/-- Splitting a character list at every `/`, the behaviour of
`String.prototype.split('/')`. -/
def splitSlash : List Char → List (List Char)
  | [] => [[]]
  | c :: rest =>
    let r := splitSlash rest
    if c = '/' then [] :: r
    else
      match r with
      | [] => [[c]]
      | h :: t => (c :: h) :: t

/-- Joining character lists with `/` between them, the behaviour of
`Array.prototype.join('/')`. -/
def joinSlash : List (List Char) → List Char
  | [] => []
  | [x] => x
  | x :: rest => x ++ '/' :: joinSlash rest

/-- Embedding of `Robot.respondPattern` (identical in both copies of the robot
module).  The source regular expression is given by its `toString()` form
(`"/body/flags"`); the steps mirror the source exactly: split on `/`, drop the
leading empty piece (`shift`), take the flags off the end (`pop`), re-join the
middle on `/`, escape the name (and the alias when one is set), and assemble
the anchored pattern — with the alias present, the textually longer of the two
escaped tokens is placed as the first alternative.  Returns the built
pattern's source together with the preserved flags.  The alias is an `Option`
because `this.alias` defaults to `false` and is tested for truthiness.  (The
anchor warning the source logs for body patterns starting with `^` is a log
side effect with no bearing on the built pattern, and is not modelled.) -/
def Robot.respondPattern (name : String) (aliasName : Option String)
    (regexStr : String) : String × String :=
  let parts := splitSlash regexStr.toList
  let re := parts.drop 1
  let modifiers := String.mk ((re.getLast?).getD [])
  let re2 := re.dropLast
  let pattern := String.mk (joinSlash re2)
  let name2 := escapeRegex name
  match aliasName with
  | none =>
    ("^\\s*[@]?" ++ name2 ++ "[:,]?\\s*(?:" ++ pattern ++ ")", modifiers)
  | some al =>
    let alias2 := escapeRegex al
    let a := if name2.length > alias2.length then name2 else alias2
    let b := if name2.length > alias2.length then alias2 else name2
    ("^\\s*[@]?(?:" ++ a ++ "[:,]?|" ++ b ++ "[:,]?)\\s*(?:" ++ pattern ++ ")",
     modifiers)

/-- Matching a concrete input against the pattern `Robot.respondPattern`
builds from the given name, alias and source regular expression. -/
def respondTest (name : String) (aliasName : Option String)
    (regexStr : String) (input : String) : Bool :=
  let p := Robot.respondPattern name aliasName regexStr
  jsTest p.1 p.2 input

/-- Identity listener callback (returns the response unchanged, never
throws), used for concrete instantiations. -/
def idCallback : Response → Except JSError Response := fun r => Except.ok r

/-! Helper lemmas about dispatch traces. -/

theorem countSettled_append (a b : List Ev) :
    countSettled (a ++ b) = countSettled a + countSettled b := by
  simp [countSettled, List.filter_append]

theorem countWrap_append (a b : List Ev) :
    countWrap (a ++ b) = countWrap a + countWrap b := by
  simp [countWrap, List.filter_append]

theorem executedIdxs_append (a b : List Ev) :
    executedIdxs (a ++ b) = executedIdxs a ++ executedIdxs b := by
  simp [executedIdxs]

theorem countSettled_settleEvents_some :
    countSettled (settleEvents (some ())) = 1 := rfl

theorem countSettled_settleEvents_none :
    countSettled (settleEvents none) = 0 := rfl

theorem countWrap_settleEvents (d : Option Unit) :
    countWrap (settleEvents d) = 0 := by
  cases d <;> rfl

theorem executedIdxs_settleEvents (d : Option Unit) :
    executedIdxs (settleEvents d) = [] := by
  cases d <;> rfl

/-- Listener-search events are execution or error-channel events only: no
settle and no wrap can originate inside the search itself. -/
theorem scan_events_scanlike (ls : List Listener) :
    ∀ (i : Nat) (m : Message) (b : Bool),
      ∀ e ∈ (scanFrom i ls m b).events,
        isSettledEv e = false ∧ isWrapEv e = false := by
  induction ls with
  | nil =>
    intro i m b e he
    simp [scanFrom] at he
  | cons l rest ih =>
    intro i m b e he
    rw [scanFrom] at he
    cases hc : Listener.call l m with
    | error er =>
      rw [hc] at he
      simp only [List.mem_cons] at he
      rcases he with he | he
      · subst he; exact ⟨rfl, rfl⟩
      · exact ih _ _ _ e he
    | ok p =>
      obtain ⟨ex, m2⟩ := p
      rw [hc] at he
      by_cases hd : m2.done = true
      · simp only [hd, if_true] at he
        cases ex <;> simp at he
        subst he; exact ⟨rfl, rfl⟩
      · simp only [Bool.not_eq_true] at hd
        simp only [hd, Bool.false_eq_true, if_false, List.mem_append] at he
        rcases he with he | he
        · cases ex <;> simp at he
          subst he; exact ⟨rfl, rfl⟩
        · exact ih _ _ _ e he

theorem scan_countSettled (i : Nat) (ls : List Listener) (m : Message)
    (b : Bool) : countSettled (scanFrom i ls m b).events = 0 := by
  rw [countSettled, List.length_eq_zero, List.filter_eq_nil_iff]
  intro e he
  simp [(scan_events_scanlike ls i m b e he).1]

theorem scan_countWrap (i : Nat) (ls : List Listener) (m : Message)
    (b : Bool) : countWrap (scanFrom i ls m b).events = 0 := by
  rw [countWrap, List.length_eq_zero, List.filter_eq_nil_iff]
  intro e he
  simp [(scan_events_scanlike ls i m b e he).2]

theorem scan_filter_nonsettled (i : Nat) (ls : List Listener) (m : Message)
    (b : Bool) :
    (scanFrom i ls m b).events.filter (fun e => ! isSettledEv e) =
      (scanFrom i ls m b).events := by
  rw [List.filter_eq_self]
  intro e he
  simp [(scan_events_scanlike ls i m b e he).1]

/-- Execution events are emitted with strictly increasing listener indices
starting at the scan's start index: the executed-listener indices form a
sublist of the index range, so listeners are attempted (and hence executed) in
registration order. -/
theorem scan_executedIdxs_sublist (ls : List Listener) :
    ∀ (i : Nat) (m : Message) (b : Bool),
      List.Sublist (executedIdxs (scanFrom i ls m b).events)
        (List.range' i ls.length) := by
  induction ls with
  | nil =>
    intro i m b
    simp [scanFrom, executedIdxs]
  | cons l rest ih =>
    intro i m b
    rw [scanFrom]
    rw [List.length_cons, List.range'_succ]
    cases hc : Listener.call l m with
    | error er =>
      simp only [executedIdxs, List.filterMap_cons, executedIdx?]
      exact List.Sublist.cons i (ih (i + 1) m b)
    | ok p =>
      obtain ⟨ex, m2⟩ := p
      by_cases hd : m2.done = true
      · simp only [hd, if_true]
        cases ex
        · simp [executedIdxs]
        · simp only [if_true, executedIdxs, List.filterMap_cons, executedIdx?,
            List.filterMap_nil]
          exact List.Sublist.cons₂ i (List.nil_sublist _)
      · simp only [Bool.not_eq_true] at hd
        simp only [hd, Bool.false_eq_true, if_false]
        rw [executedIdxs_append]
        cases ex
        · simp only [Bool.false_eq_true, if_false, Bool.or_false]
          rw [show executedIdxs [] = [] from rfl, List.nil_append]
          exact List.Sublist.cons i (ih (i + 1) m2 b)
        · simp only [if_true, Bool.or_true]
          rw [show executedIdxs [Ev.executed i] = [i] from rfl,
            List.singleton_append]
          exact List.Sublist.cons₂ i (ih (i + 1) m2 true)

/-- Unfolding of `Robot.processListeners` on the catch-all fallback branch:
the message is not a `CatchAll` and no listener executed. -/
theorem processListeners_wrap (listeners : List Listener) (msg : Message)
    (done : Option Unit) (h1 : Message.isCatchAllMessage msg = false)
    (h2 : (scanFrom 0 listeners msg false).anyExecuted = false) :
    Robot.processListeners listeners msg done =
      (scanFrom 0 listeners msg false).events ++ Ev.wrapped ::
        Robot.processListeners listeners
          (Message.catchAll (scanFrom 0 listeners msg false).msg false) done
    := by
  rw [Robot.processListeners]
  simp only [h1, h2, and_self, dif_pos]

/-- Unfolding of `Robot.processListeners` on the settle branch: the message is
a `CatchAll` or some listener executed, so the pass ends with the (guarded)
completion callback. -/
theorem processListeners_settle (listeners : List Listener) (msg : Message)
    (done : Option Unit)
    (h : ¬(Message.isCatchAllMessage msg = false ∧
        (scanFrom 0 listeners msg false).anyExecuted = false)) :
    Robot.processListeners listeners msg done =
      (scanFrom 0 listeners msg false).events ++ settleEvents done := by
  rw [Robot.processListeners]
  simp only [dif_neg h]

theorem countSettled_cons_wrapped (t : List Ev) :
    countSettled (Ev.wrapped :: t) = countSettled t := by
  simp [countSettled, List.filter_cons, isSettledEv]

theorem countWrap_cons_wrapped (t : List Ev) :
    countWrap (Ev.wrapped :: t) = countWrap t + 1 := by
  simp [countWrap, List.filter_cons, isWrapEv, Nat.add_comm]

theorem executedIdxs_cons_wrapped (t : List Ev) :
    executedIdxs (Ev.wrapped :: t) = executedIdxs t := by
  simp [executedIdxs, List.filterMap_cons, executedIdx?]

/-- Wrap count of a dispatch pass whose message is already a CatchAll: the
fallback guard fails, so the pass settles without wrapping. -/
theorem countWrap_processListeners_catchAll (listeners : List Listener)
    (m : Message) (done : Option Unit)
    (h : Message.isCatchAllMessage m = true) :
    countWrap (Robot.processListeners listeners m done) = 0 := by
  rw [processListeners_settle listeners m done (by simp [h])]
  rw [countWrap_append, scan_countWrap, countWrap_settleEvents]

theorem filter_nonsettled_wrap_cons (t : List Ev) :
    (Ev.wrapped :: t).filter (fun e => ! isSettledEv e) =
      Ev.wrapped :: t.filter (fun e => ! isSettledEv e) := rfl

theorem filter_nonsettled_settleEvents (d : Option Unit) :
    (settleEvents d).filter (fun e => ! isSettledEv e) = [] := by
  cases d <;> rfl

theorem countSettled_filter_nonsettled (t : List Ev) :
    countSettled (t.filter (fun e => ! isSettledEv e)) = 0 := by
  rw [countSettled, List.length_eq_zero, List.filter_eq_nil_iff]
  intro e he
  simp only [List.mem_filter, Bool.not_eq_true'] at he
  simp [he.2]

/-!
Claim theorems.
-/

/-- C1.  Behaviour of `Robot.invokeErrorHandlers` at the failing input: with
`errorHandlers = [h0, h1]` where `h0` throws, only `h0` is invoked and a
TypeError propagates to the caller of `invokeErrorHandlers` — the `catch`
clause evaluates `this.logger` with `this` bound to `undefined` inside the
strict-mode plain-function `forEach` body, so the claimed behaviour (exception
caught and logged, the handlers registered after the throwing one still
invoked, nothing propagating to the caller) fails.  When no handler throws,
every handler is invoked in registration order and the call returns
normally. -/
theorem invokeErrorHandlers_fault_propagates :
    Robot.invokeErrorHandlers
      [fun (_ : Nat) (_ : Option Nat) =>
          Except.error (JSError.thrown ("boom")),
       fun _ _ => Except.ok ()] 0 none
      = ([0], Except.error (JSError.typeError
          ("Cannot read property logger of undefined")))
    ∧ Robot.invokeErrorHandlers
      [fun (_ : Nat) (_ : Option Nat) => Except.ok (),
       fun _ _ => Except.ok (), fun _ _ => Except.ok ()] 0 none
      = ([0, 1, 2], Except.ok ()) :=
  ⟨rfl, rfl⟩

/-- C2.  The `leave` and `topic` helpers of the full robot module install
matchers that hold exactly on the Leave and Topic variants; the copy at
`src/robot.js` instead installs an `EnterMessage` matcher in both helpers, so
at the failing inputs a Leave (resp. Topic) message is rejected and an Enter
message is accepted, contradicting the claim and the helpers' own doc
comments. -/
theorem leave_topic_matcher_tags :
    (∀ (cb : Response → Except JSError Response) (m : Message),
        ((Robot.leave cb).matcher m = Except.ok true ↔
          ∃ d, m = Message.leave d)
        ∧ ((Robot.topic cb).matcher m = Except.ok true ↔
          ∃ d, m = Message.topic d))
    ∧ (RobotSrc.leave idCallback).matcher (Message.leave false)
        = Except.ok false
    ∧ (RobotSrc.topic idCallback).matcher (Message.topic false)
        = Except.ok false
    ∧ (RobotSrc.leave idCallback).matcher (Message.enter false)
        = Except.ok true
    ∧ (RobotSrc.topic idCallback).matcher (Message.enter false)
        = Except.ok true := by
  refine ⟨?_, rfl, rfl, rfl, rfl⟩
  intro cb m
  constructor
  · cases m <;>
      simp [Robot.leave, Message.isLeaveMessage]
  · cases m <;>
      simp [Robot.topic, Message.isTopicMessage]

/-- C7.  The pattern `respondPattern` builds for bot name Webby with no alias
and body pattern `foo` matches the addressed forms with a colon separator and
with a leading at-sign; with the case-insensitive flag on the source pattern
it also matches the lower-case comma-separated form; and it does not match an
un-addressed string containing the body and the name elsewhere. -/
theorem respondPattern_webby_examples :
    respondTest ("Webby") none ("/foo/") ("Webby: foo") = true
    ∧ respondTest ("Webby") none ("/foo/") ("@Webby foo") = true
    ∧ respondTest ("Webby") none ("/foo/i") ("webby, foo") = true
    ∧ respondTest ("Webby") none ("/foo/") ("foofoo webby") = false := by
  refine ⟨by decide, by decide, by decide, by decide⟩

/-- C8.  With both a name and an alias set, `respondPattern` escapes both for
literal use and places the textually longer escaped token as the first
alternative of the built pattern; with alias Bot shorter than name Webby the
built pattern is exactly the Webby-first alternation and matches both
addressed forms. -/
theorem respondPattern_alias_longer_first :
    (∀ (name al rs : String),
        (Robot.respondPattern name (some al) rs).1 =
          "^\\s*[@]?(?:"
            ++ (if (escapeRegex name).length > (escapeRegex al).length
                then escapeRegex name else escapeRegex al)
            ++ "[:,]?|"
            ++ (if (escapeRegex name).length > (escapeRegex al).length
                then escapeRegex al else escapeRegex name)
            ++ "[:,]?)\\s*(?:"
            ++ String.mk (joinSlash (((splitSlash rs.toList).drop 1).dropLast))
            ++ ")")
    ∧ (Robot.respondPattern ("Webby") (some ("Bot")) ("/foo/")).1
        = "^\\s*[@]?(?:Webby[:,]?|Bot[:,]?)\\s*(?:foo)"
    ∧ respondTest ("Webby") (some ("Bot")) ("/foo/") ("Webby: foo") = true
    ∧ respondTest ("Webby") (some ("Bot")) ("/foo/") ("Bot: foo") = true := by
  refine ⟨?_, by decide, by decide, by decide⟩
  intro name al rs
  rfl

/-- C9.  The listener installed by the `catchAll` helper matches the CatchAll
wrapper, and before the user-supplied callback runs it replaces the response's
message by the wrapper's inner message (`msg.message = msg.message.message`),
so the callback observes the wrapped original message rather than the CatchAll
wrapper. -/
theorem catchAll_callback_unwraps (cb : Response → Except JSError Response)
    (resp : Response) (inner : Message) (d : Bool)
    (h : resp.message = Message.catchAll inner d) :
    (Robot.catchAll cb).matcher resp.message = Except.ok true
    ∧ (Robot.catchAll cb).callback resp = cb ⟨inner⟩ := by
  obtain ⟨m⟩ := resp
  simp only at h
  subst h
  exact ⟨rfl, rfl⟩

/-- Witness for C9 at a concrete CatchAll-wrapped text message. -/
theorem catchAll_callback_unwraps_witness :
    (Robot.catchAll idCallback).matcher
        (Message.catchAll (Message.text ("hi") false) false) = Except.ok true
    ∧ (Robot.catchAll idCallback).callback
        ⟨Message.catchAll (Message.text ("hi") false) false⟩
      = Except.ok ⟨Message.text ("hi") false⟩ :=
  catchAll_callback_unwraps idCallback
    ⟨Message.catchAll (Message.text ("hi") false) false⟩
    (Message.text ("hi") false) false rfl

/-- C3.  Catch-all wrapping discipline of a dispatch pass: a pass over a
message that is already a CatchAll never wraps again (whatever the listeners
did); a pass over a non-CatchAll message during whose search no listener
executed wraps and re-dispatches exactly once; and no pass ever wraps more
than once. -/
theorem catchall_wrap_exactly_once (listeners : List Listener) (m : Message)
    (done : Option Unit) :
    (Message.isCatchAllMessage m = true →
        countWrap (Robot.receive listeners m done) = 0)
    ∧ (Message.isCatchAllMessage m = false →
        (scanFrom 0 listeners m false).anyExecuted = false →
        countWrap (Robot.receive listeners m done) = 1)
    ∧ countWrap (Robot.receive listeners m done) ≤ 1 := by
  have hwrap : Message.isCatchAllMessage m = false →
      (scanFrom 0 listeners m false).anyExecuted = false →
      countWrap (Robot.receive listeners m done) = 1 := by
    intro h1 h2
    rw [Robot.receive, processListeners_wrap listeners m done h1 h2]
    rw [countWrap_append, scan_countWrap, countWrap_cons_wrapped,
      countWrap_processListeners_catchAll listeners
        (Message.catchAll (scanFrom 0 listeners m false).msg false) done rfl]
  refine ⟨?_, hwrap, ?_⟩
  · intro h
    rw [Robot.receive]
    exact countWrap_processListeners_catchAll listeners m done h
  · by_cases hg : Message.isCatchAllMessage m = false ∧
        (scanFrom 0 listeners m false).anyExecuted = false
    · rw [hwrap hg.1 hg.2]
    · rw [Robot.receive, processListeners_settle listeners m done hg]
      rw [countWrap_append, scan_countWrap, countWrap_settleEvents]
      exact Nat.zero_le 1

/-- Witness for C3: over an empty listener list, a plain text message wraps
exactly once and a CatchAll message never wraps. -/
theorem catchall_wrap_exactly_once_witness :
    countWrap (Robot.receive [] (Message.text ("hi") false) (some ())) = 1
    ∧ countWrap (Robot.receive []
        (Message.catchAll (Message.text ("hi") false) false) (some ())) = 0 :=
  ⟨(catchall_wrap_exactly_once [] (Message.text ("hi") false)
      (some ())).2.1 rfl rfl,
   (catchall_wrap_exactly_once []
      (Message.catchAll (Message.text ("hi") false) false) (some ())).1 rfl⟩

/-- C5.  Every dispatch pass with a supplied completion callback invokes it
exactly once, whatever the message and the registered listeners — zero
listeners, several matching listeners, throwing listeners and the catch-all
re-dispatch path are all instances of the quantification. -/
theorem dispatch_settles_exactly_once (listeners : List Listener)
    (m : Message) :
    countSettled (Robot.receive listeners m (some ())) = 1 := by
  have hca : ∀ (m2 : Message), Message.isCatchAllMessage m2 = true →
      countSettled (Robot.processListeners listeners m2 (some ())) = 1 := by
    intro m2 h2
    rw [processListeners_settle listeners m2 (some ()) (by simp [h2])]
    rw [countSettled_append, scan_countSettled, countSettled_settleEvents_some]
  rw [Robot.receive]
  by_cases hg : Message.isCatchAllMessage m = false ∧
      (scanFrom 0 listeners m false).anyExecuted = false
  · rw [processListeners_wrap listeners m (some ()) hg.1 hg.2]
    rw [countSettled_append, scan_countSettled, countSettled_cons_wrapped,
      hca (Message.catchAll (scanFrom 0 listeners m false).msg false) rfl]
  · rw [processListeners_settle listeners m (some ()) hg]
    rw [countSettled_append, scan_countSettled, countSettled_settleEvents_some]

/-- C10.  Dispatching with the completion callback omitted performs the whole
pass — the same listener searches, error reports and catch-all re-dispatch, as
the trace equality with the callback-supplied pass shows — and, because the
final invocation is guarded by the null check, it merely records no settle
event; no error is raised anywhere on the path. -/
theorem dispatch_without_callback (listeners : List Listener) (m : Message) :
    Robot.receive listeners m none =
      (Robot.receive listeners m (some ())).filter (fun e => ! isSettledEv e)
    ∧ countSettled (Robot.receive listeners m none) = 0 := by
  have key : Robot.receive listeners m none =
      (Robot.receive listeners m (some ())).filter
        (fun e => ! isSettledEv e) := by
    rw [Robot.receive, Robot.receive]
    by_cases hg : Message.isCatchAllMessage m = false ∧
        (scanFrom 0 listeners m false).anyExecuted = false
    · rw [processListeners_wrap listeners m none hg.1 hg.2,
        processListeners_wrap listeners m (some ()) hg.1 hg.2]
      have hin : ¬(Message.isCatchAllMessage
          (Message.catchAll (scanFrom 0 listeners m false).msg false) = false ∧
          (scanFrom 0 listeners
            (Message.catchAll (scanFrom 0 listeners m false).msg false)
            false).anyExecuted = false) := by
        simp [Message.isCatchAllMessage]
      rw [processListeners_settle _ _ none hin,
        processListeners_settle _ _ (some ()) hin]
      rw [List.filter_append, scan_filter_nonsettled,
        filter_nonsettled_wrap_cons, List.filter_append,
        scan_filter_nonsettled, filter_nonsettled_settleEvents]
      simp [settleEvents]
    · rw [processListeners_settle listeners m none hg,
        processListeners_settle listeners m (some ()) hg]
      rw [List.filter_append, scan_filter_nonsettled,
        filter_nonsettled_settleEvents]
      simp [settleEvents]
  refine ⟨key, ?_⟩
  rw [key]
  exact countSettled_filter_nonsettled _

/-- C4.  Failure isolation in the listener search, at every position of every
listener list.  First conjunct, general: whenever the search reaches a
listener whose `call` throws — at an arbitrary registration index `i`, with
arbitrary remaining listeners, current message and accumulated executed flag —
the dispatcher catches the exception, forwards it to the error channel with a
response context around the current message (the `errored i e m` event),
treats that listener as not executed (the executed flag is passed on
untouched and no execution event for `i` is emitted), and continues the
search with the next registered listener on the unchanged message.  Second
conjunct, the claim's `[A(throws), B(matches)]` instance for both throw sites
(callback and matcher): B executes, so the executed indices are exactly
`[1]`, and the error report is in the trace.  Third conjunct, a throwing
listener at an interior position: on `[X(matches), A(throws), C(matches)]`
the neighbours execute (`[0, 2]`) and A's error is reported. -/
theorem listener_fault_isolation :
    (∀ (i : Nat) (rest : List Listener) (m : Message) (b : Bool)
        (A : Listener) (e : JSError),
        Listener.call A m = Except.error e →
        scanFrom i (A :: rest) m b =
          ⟨(scanFrom (i + 1) rest m b).msg,
           (scanFrom (i + 1) rest m b).anyExecuted,
           Ev.errored i e m :: (scanFrom (i + 1) rest m b).events⟩)
    ∧ (∀ (m : Message) (done : Option Unit) (e : JSError)
          (cbX fB : Response → Except JSError Response),
        (∀ r, ∃ r2, fB r = Except.ok r2) →
        (executedIdxs (Robot.receive
            [⟨fun _ => Except.ok true, fun _ => Except.error e⟩,
             ⟨fun _ => Except.ok true, fB⟩] m done) = [1]
          ∧ Ev.errored 0 e m ∈ Robot.receive
            [⟨fun _ => Except.ok true, fun _ => Except.error e⟩,
             ⟨fun _ => Except.ok true, fB⟩] m done)
        ∧ (executedIdxs (Robot.receive
            [⟨fun _ => Except.error e, cbX⟩,
             ⟨fun _ => Except.ok true, fB⟩] m done) = [1]
          ∧ Ev.errored 0 e m ∈ Robot.receive
            [⟨fun _ => Except.error e, cbX⟩,
             ⟨fun _ => Except.ok true, fB⟩] m done))
    ∧ (∀ (m : Message) (done : Option Unit) (e : JSError)
          (fX fC : Response → Except JSError Response),
        (∀ r, ∃ r2, fX r = Except.ok r2 ∧ Message.done r2.message = false) →
        (∀ r, ∃ r2, fC r = Except.ok r2) →
        executedIdxs (Robot.receive
          [⟨fun _ => Except.ok true, fX⟩,
           ⟨fun _ => Except.ok true, fun _ => Except.error e⟩,
           ⟨fun _ => Except.ok true, fC⟩] m done) = [0, 2]
        ∧ ∃ mm, Ev.errored 1 e mm ∈ Robot.receive
          [⟨fun _ => Except.ok true, fX⟩,
           ⟨fun _ => Except.ok true, fun _ => Except.error e⟩,
           ⟨fun _ => Except.ok true, fC⟩] m done) := by
  refine ⟨?_, ?_, ?_⟩
  · intro i rest m b A e h
    rw [scanFrom, h]
  · intro m done e cbX fB hB
    obtain ⟨r2, hr2⟩ := hB ⟨m⟩
    have hcallB : Listener.call ⟨fun _ => Except.ok true, fB⟩ m =
        Except.ok (true, r2.message) := by
      simp only [Listener.call, hr2]
    have hcallA1 : Listener.call
        ⟨fun _ => Except.ok true, fun _ => Except.error e⟩ m =
        Except.error e := rfl
    have hcallA2 : Listener.call ⟨fun _ => Except.error e, cbX⟩ m =
        Except.error e := rfl
    have hscan1 : scanFrom 0
        [⟨fun _ => Except.ok true, fun _ => Except.error e⟩,
         ⟨fun _ => Except.ok true, fB⟩] m false =
        ⟨r2.message, true, [Ev.errored 0 e m, Ev.executed 1]⟩ := by
      cases hd : Message.done r2.message <;>
        simp [scanFrom, hcallA1, hcallB, hd]
    have hscan2 : scanFrom 0
        [⟨fun _ => Except.error e, cbX⟩,
         ⟨fun _ => Except.ok true, fB⟩] m false =
        ⟨r2.message, true, [Ev.errored 0 e m, Ev.executed 1]⟩ := by
      cases hd : Message.done r2.message <;>
        simp [scanFrom, hcallA2, hcallB, hd]
    constructor
    · have hguard : ¬(Message.isCatchAllMessage m = false ∧
          (scanFrom 0
            [⟨fun _ => Except.ok true, fun _ => Except.error e⟩,
             ⟨fun _ => Except.ok true, fB⟩] m false).anyExecuted = false) := by
        rw [hscan1]; simp
      rw [Robot.receive, processListeners_settle _ _ _ hguard, hscan1]
      constructor
      · rw [executedIdxs_append, executedIdxs_settleEvents]
        rfl
      · simp
    · have hguard : ¬(Message.isCatchAllMessage m = false ∧
          (scanFrom 0
            [⟨fun _ => Except.error e, cbX⟩,
             ⟨fun _ => Except.ok true, fB⟩] m false).anyExecuted = false) := by
        rw [hscan2]; simp
      rw [Robot.receive, processListeners_settle _ _ _ hguard, hscan2]
      constructor
      · rw [executedIdxs_append, executedIdxs_settleEvents]
        rfl
      · simp
  · intro m done e fX fC hX hC
    obtain ⟨r2, hr2, hd2⟩ := hX ⟨m⟩
    obtain ⟨r3, hr3⟩ := hC ⟨r2.message⟩
    have hcallX : Listener.call ⟨fun _ => Except.ok true, fX⟩ m =
        Except.ok (true, r2.message) := by
      simp only [Listener.call, hr2]
    have hcallA : Listener.call
        ⟨fun _ => Except.ok true, fun _ => Except.error e⟩ r2.message =
        Except.error e := rfl
    have hcallC : Listener.call ⟨fun _ => Except.ok true, fC⟩ r2.message =
        Except.ok (true, r3.message) := by
      simp only [Listener.call, hr3]
    have hscan : scanFrom 0
        [⟨fun _ => Except.ok true, fX⟩,
         ⟨fun _ => Except.ok true, fun _ => Except.error e⟩,
         ⟨fun _ => Except.ok true, fC⟩] m false =
        ⟨r3.message, true,
         [Ev.executed 0, Ev.errored 1 e r2.message, Ev.executed 2]⟩ := by
      cases hd3 : Message.done r3.message <;>
        simp [scanFrom, hcallX, hcallA, hcallC, hd2, hd3]
    have hguard : ¬(Message.isCatchAllMessage m = false ∧
        (scanFrom 0
          [⟨fun _ => Except.ok true, fX⟩,
           ⟨fun _ => Except.ok true, fun _ => Except.error e⟩,
           ⟨fun _ => Except.ok true, fC⟩] m false).anyExecuted = false) := by
      rw [hscan]; simp
    rw [Robot.receive, processListeners_settle _ _ _ hguard, hscan]
    constructor
    · rw [executedIdxs_append, executedIdxs_settleEvents]
      rfl
    · exact ⟨r2.message, by simp⟩

/-- Witness for C4 at concrete inputs: the general conjunct at a singleton
list, the `[A(throws), B(matches)]` instance, and the interior-position
instance `[X, A(throws), C]`. -/
theorem listener_fault_isolation_witness :
    scanFrom 0 [⟨fun _ => Except.error (JSError.thrown ("boom")), idCallback⟩]
        (Message.text ("hi") false) false =
      ⟨Message.text ("hi") false, false,
       [Ev.errored 0 (JSError.thrown ("boom")) (Message.text ("hi") false)]⟩
    ∧ executedIdxs (Robot.receive
        [⟨fun _ => Except.ok true,
          fun _ => Except.error (JSError.thrown ("boom"))⟩,
         ⟨fun _ => Except.ok true, idCallback⟩]
        (Message.text ("hi") false) (some ())) = [1]
    ∧ executedIdxs (Robot.receive
        [⟨fun _ => Except.ok true,
          fun _ => Except.ok ⟨Message.text ("hi") false⟩⟩,
         ⟨fun _ => Except.ok true,
          fun _ => Except.error (JSError.thrown ("boom"))⟩,
         ⟨fun _ => Except.ok true, idCallback⟩]
        (Message.text ("hi") false) (some ())) = [0, 2] :=
  ⟨listener_fault_isolation.1 0 [] (Message.text ("hi") false) false
      ⟨fun _ => Except.error (JSError.thrown ("boom")), idCallback⟩
      (JSError.thrown ("boom")) rfl,
   ((listener_fault_isolation.2.1 (Message.text ("hi") false) (some ())
      (JSError.thrown ("boom")) idCallback idCallback
      (fun r => ⟨r, rfl⟩)).1).1,
   (listener_fault_isolation.2.2 (Message.text ("hi") false) (some ())
      (JSError.thrown ("boom"))
      (fun _ => Except.ok ⟨Message.text ("hi") false⟩) idCallback
      (fun _ => ⟨⟨Message.text ("hi") false⟩, rfl, rfl⟩)
      (fun r => ⟨r, rfl⟩)).1⟩

/-- C6.  Listener search order: in general, the executed-listener indices of a
search form a sublist of the registration-index range, so listeners are
attempted and executed in exactly registration order.  On listeners `[A, B,
C]` where A and C match and B does not: when A's callback sets the message's
`done` flag the search stops right after A and only A executes; when A's
callback never sets `done` (and C's callback returns normally), A and C both
execute, in registration order. -/
theorem listener_order_done_stop :
    (∀ (listeners : List Listener) (m : Message),
        List.Sublist (executedIdxs (scanFrom 0 listeners m false).events)
          (List.range listeners.length))
    ∧ (∀ (m : Message) (done : Option Unit)
          (fA fB fC : Response → Except JSError Response),
        (∀ r, ∃ r2, fA r = Except.ok r2 ∧ Message.done r2.message = true) →
        executedIdxs (Robot.receive
          [⟨fun _ => Except.ok true, fA⟩, ⟨fun _ => Except.ok false, fB⟩,
           ⟨fun _ => Except.ok true, fC⟩] m done) = [0])
    ∧ (∀ (m : Message) (done : Option Unit)
          (fA fB fC : Response → Except JSError Response),
        (∀ r, ∃ r2, fA r = Except.ok r2 ∧ Message.done r2.message = false) →
        (∀ r, ∃ r2, fC r = Except.ok r2) →
        executedIdxs (Robot.receive
          [⟨fun _ => Except.ok true, fA⟩, ⟨fun _ => Except.ok false, fB⟩,
           ⟨fun _ => Except.ok true, fC⟩] m done) = [0, 2]) := by
  refine ⟨?_, ?_, ?_⟩
  · intro listeners m
    rw [List.range_eq_range']
    exact scan_executedIdxs_sublist listeners 0 m false
  · intro m done fA fB fC hA
    obtain ⟨r2, hr2, hd2⟩ := hA ⟨m⟩
    have hcallA : Listener.call ⟨fun _ => Except.ok true, fA⟩ m =
        Except.ok (true, r2.message) := by
      simp only [Listener.call, hr2]
    have hscan : scanFrom 0
        [⟨fun _ => Except.ok true, fA⟩, ⟨fun _ => Except.ok false, fB⟩,
         ⟨fun _ => Except.ok true, fC⟩] m false =
        ⟨r2.message, true, [Ev.executed 0]⟩ := by
      simp [scanFrom, hcallA, hd2]
    have hguard : ¬(Message.isCatchAllMessage m = false ∧
        (scanFrom 0
          [⟨fun _ => Except.ok true, fA⟩, ⟨fun _ => Except.ok false, fB⟩,
           ⟨fun _ => Except.ok true, fC⟩] m false).anyExecuted = false) := by
      rw [hscan]; simp
    rw [Robot.receive, processListeners_settle _ _ _ hguard, hscan]
    rw [executedIdxs_append, executedIdxs_settleEvents]
    rfl
  · intro m done fA fB fC hA hC
    obtain ⟨r2, hr2, hd2⟩ := hA ⟨m⟩
    obtain ⟨r3, hr3⟩ := hC ⟨r2.message⟩
    have hcallA : Listener.call ⟨fun _ => Except.ok true, fA⟩ m =
        Except.ok (true, r2.message) := by
      simp only [Listener.call, hr2]
    have hcallB : Listener.call ⟨fun _ => Except.ok false, fB⟩ r2.message =
        Except.ok (false, r2.message) := rfl
    have hcallC : Listener.call ⟨fun _ => Except.ok true, fC⟩ r2.message =
        Except.ok (true, r3.message) := by
      simp only [Listener.call, hr3]
    have hscan : scanFrom 0
        [⟨fun _ => Except.ok true, fA⟩, ⟨fun _ => Except.ok false, fB⟩,
         ⟨fun _ => Except.ok true, fC⟩] m false =
        ⟨r3.message, true, [Ev.executed 0, Ev.executed 2]⟩ := by
      cases hd3 : Message.done r3.message <;>
        simp [scanFrom, hcallA, hcallB, hcallC, hd2, hd3]
    have hguard : ¬(Message.isCatchAllMessage m = false ∧
        (scanFrom 0
          [⟨fun _ => Except.ok true, fA⟩, ⟨fun _ => Except.ok false, fB⟩,
           ⟨fun _ => Except.ok true, fC⟩] m false).anyExecuted = false) := by
      rw [hscan]; simp
    rw [Robot.receive, processListeners_settle _ _ _ hguard, hscan]
    rw [executedIdxs_append, executedIdxs_settleEvents]
    rfl

/-- Witness for C6 at concrete listeners: a done-setting first listener yields
`[0]`; a non-done-setting first listener with a matching third yields
`[0, 2]`. -/
theorem listener_order_done_stop_witness :
    executedIdxs (Robot.receive
      [⟨fun _ => Except.ok true,
        fun _ => Except.ok ⟨Message.text ("hi") true⟩⟩,
       ⟨fun _ => Except.ok false, idCallback⟩,
       ⟨fun _ => Except.ok true, idCallback⟩]
      (Message.text ("hi") false) (some ())) = [0]
    ∧ executedIdxs (Robot.receive
      [⟨fun _ => Except.ok true,
        fun _ => Except.ok ⟨Message.text ("hi") false⟩⟩,
       ⟨fun _ => Except.ok false, idCallback⟩,
       ⟨fun _ => Except.ok true, idCallback⟩]
      (Message.text ("hi") false) (some ())) = [0, 2] :=
  ⟨listener_order_done_stop.2.1 (Message.text ("hi") false) (some ())
      (fun _ => Except.ok ⟨Message.text ("hi") true⟩) idCallback idCallback
      (fun _ => ⟨⟨Message.text ("hi") true⟩, rfl, rfl⟩),
   listener_order_done_stop.2.2 (Message.text ("hi") false) (some ())
      (fun _ => Except.ok ⟨Message.text ("hi") false⟩) idCallback idCallback
      (fun _ => ⟨⟨Message.text ("hi") false⟩, rfl, rfl⟩)
      (fun r => ⟨r, rfl⟩)⟩
